import Mathlib

/-!
Verification of the Portfolio Risk Analytics Engine and Price-Alert Monitor
of the crypto agent toolset.

The portfolio pipeline (`src/src/mastra/agents/crypto-agent/tools/portfolio.ts`)
is embedded over `ℝ` (JavaScript numbers are idealised as reals; the spec states
its sum invariants "within floating-point tolerance", which this idealisation
makes exact).  The price-alert monitor
(`src/src/mastra/agents/crypto-agent/tools/price-alerts.ts`, the email-enabled
versions of the tools, lines 798-1345) is embedded over `ℚ` so that runs of the
state machine are decidable.

Network calls (`fetch`, Moralis price lookups) are modelled by passing their
resolved results as explicit arguments (a price map / price feed); `Date`
timestamps, log strings and interpolated presentation strings (`message`,
`suggested_action`, email bodies) are elided, as no claim depends on them.
JavaScript truthiness on optional numbers (`undefined` and `0` are falsy) is
modelled by `jsTruthy`.
-/

namespace CryptoAgent

/-- JavaScript `Math.round`: round half towards `+∞`, which matches Lean's
`round` (`round x = ⌊x + 1/2⌋`).  `roundTo p x` models
`Math.round(x * p) / p`, the pattern used throughout `portfolio.ts`
(`p = 100` for two decimals, `1000` for three, `10000` for four). -/
noncomputable def roundTo (p : ℝ) (x : ℝ) : ℝ :=
  ((round (x * p) : ℤ) : ℝ) / p

/-! ## Portfolio valuation (`getPortfolioData`) -/

/-- A raw holding as returned by the per-chain holdings fetchers
(`getEthereumHoldings` etc.): `{ symbol, name, amount, token_address }`. -/
structure RawHolding where
  symbol : String
  name : Option String
  amount : ℝ
  token_address : Option String

/-- One entry of the Moralis price response:
`{ usd, usd_24h_change }` (the 24h change may be absent, the code reads it
with `|| 0`). -/
structure PriceEntry where
  usd : ℝ
  usd_24h_change : Option ℝ

/-- The resolved price map `priceData`: key (token address or symbol) to
price entry; `none` models a missing entry. -/
def PriceMap := String → Option PriceEntry

/-- `const priceKey = token_address || symbol;` — JavaScript `||` falls back
on `undefined` and on the empty string. -/
def priceKey (h : RawHolding) : String :=
  match h.token_address with
  | some t => if t = "" then h.symbol else t
  | none => h.symbol

/-- `name: name || symbol` with JavaScript `||` (empty string is falsy). -/
def displayName (h : RawHolding) : String :=
  match h.name with
  | some n => if n = "" then h.symbol else n
  | none => h.symbol

/-- A priced holding as pushed onto `holdingsData` inside
`getPortfolioData`. -/
structure PricedHolding where
  name : String
  symbol : String
  amount : ℝ
  current_price : ℝ
  value : ℝ
  change_24h : ℝ
  change_percentage_24h : ℝ
  token_address : Option String

/-- The record returned by `getPortfolioData`. -/
structure PortfolioData where
  total_value : ℝ
  total_change_24h : ℝ
  total_change_percentage_24h : ℝ
  holdings : List PricedHolding

/-- The body of the `for (const holding of holdings)` loop of
`getPortfolioData`: if the price map has an entry for the holding's key with
`usd > 0`, push the priced holding and accumulate `totalValue` and
`totalChange24h`; otherwise skip the holding. The accumulator is
`(totalValue, totalChange24h, holdingsData)`. -/
noncomputable def portfolioStep (prices : PriceMap)
    (acc : ℝ × ℝ × List PricedHolding) (h : RawHolding) :
    ℝ × ℝ × List PricedHolding :=
  match prices (priceKey h) with
  | some p =>
      if p.usd > 0 then
        let price := p.usd
        let change24hPercent := p.usd_24h_change.getD 0
        let value := h.amount * price
        let holdingChange24h := value * change24hPercent / 100
        (acc.1 + value, acc.2.1 + holdingChange24h,
          acc.2.2 ++ [{ name := displayName h
                        symbol := h.symbol.toUpper
                        amount := h.amount
                        current_price := price
                        value := value
                        change_24h := holdingChange24h
                        change_percentage_24h := change24hPercent
                        token_address := h.token_address }])
      else acc
  | none => acc

/-- `getPortfolioData` with the chain dispatch and network layer resolved:
`raw` is the fetched holdings list, `prices` the resolved price map.  The
early-return for an empty holdings list and the accumulation loop are
embedded as in the source. -/
noncomputable def getPortfolioData (raw : List RawHolding) (prices : PriceMap) :
    PortfolioData :=
  if raw.length == 0 then
    { total_value := 0
      total_change_24h := 0
      total_change_percentage_24h := 0
      holdings := [] }
  else
    let acc := raw.foldl (portfolioStep prices) (0, 0, [])
    { total_value := acc.1
      total_change_24h := acc.2.1
      total_change_percentage_24h :=
        if acc.1 > 0 then acc.2.1 / acc.1 * 100 else 0
      holdings := acc.2.2 }

/-- Modelled from the spec (§4.1 contract, for the refinement claim C2):
resolve one holding against the price map; the value is
`amount × unit_price`, and a holding whose price is missing or non-positive
resolves to `none` (dropped). -/
noncomputable def resolveHolding (prices : PriceMap) (h : RawHolding) :
    Option PricedHolding :=
  match prices (priceKey h) with
  | some p =>
      if p.usd > 0 then
        some { name := displayName h
               symbol := h.symbol.toUpper
               amount := h.amount
               current_price := p.usd
               value := h.amount * p.usd
               change_24h := h.amount * p.usd * (p.usd_24h_change.getD 0) / 100
               change_percentage_24h := p.usd_24h_change.getD 0
               token_address := h.token_address }
      else none
  | none => none

/-! ## Risk metrics (`calculateRiskMetrics`, `getZScore`) -/

/-- `getZScore`: the z-score lookup table `{0.90: 1.282, 0.95: 1.645,
0.99: 2.326}` with `|| 1.645` as the default for any other confidence
level. -/
noncomputable def getZScore (confidenceLevel : ℝ) : ℝ :=
  if confidenceLevel = 0.9 then 1.282
  else if confidenceLevel = 0.95 then 1.645
  else if confidenceLevel = 0.99 then 2.326
  else 1.645

/-- The `portfolioVolatility` accumulator of `calculateRiskMetrics`:
`holdings.forEach` adding `weight * volatility` with
`weight = value / total_value` and `volatility = |change_percentage_24h|`. -/
noncomputable def portfolioVolatility (pd : PortfolioData) : ℝ :=
  pd.holdings.foldl
    (fun acc h => acc + h.value / pd.total_value * |h.change_percentage_24h|) 0

/-- `annualizedVolatility = portfolioVolatility * Math.sqrt(365)`. -/
noncomputable def annualizedVolatility (pd : PortfolioData) : ℝ :=
  portfolioVolatility pd * Real.sqrt 365

/-- `var1d = total_value * portfolioVolatility * zScore / 100`. -/
noncomputable def var1d (pd : PortfolioData) (confidenceLevel : ℝ) : ℝ :=
  pd.total_value * portfolioVolatility pd * getZScore confidenceLevel / 100

/-- `var7d = total_value * portfolioVolatility * Math.sqrt(7) * zScore / 100`. -/
noncomputable def var7d (pd : PortfolioData) (confidenceLevel : ℝ) : ℝ :=
  pd.total_value * portfolioVolatility pd * Real.sqrt 7 *
    getZScore confidenceLevel / 100

/-- The record returned by `calculateRiskMetrics`. -/
structure RiskMetrics where
  portfolio_volatility : ℝ
  value_at_risk_1d : ℝ
  value_at_risk_7d : ℝ
  sharpe_ratio : ℝ
  maximum_drawdown : ℝ

/-- `calculateRiskMetrics`: volatility, VaR, Sharpe ratio and max-drawdown
heuristic, each rounded exactly as in the source. -/
noncomputable def calculateRiskMetrics (pd : PortfolioData)
    (confidenceLevel : ℝ) : RiskMetrics :=
  let portfolioReturn := pd.total_change_percentage_24h
  let riskFreeRate : ℝ := 0.02
  let sharpeRatio :=
    if portfolioReturn > 0 then
      (portfolioReturn - riskFreeRate / 365) /
        (if portfolioVolatility pd > 0 then portfolioVolatility pd else 1)
    else 0
  let maxDrawdown := min (portfolioVolatility pd * 2) 100
  { portfolio_volatility := roundTo 100 (annualizedVolatility pd)
    value_at_risk_1d := roundTo 100 (var1d pd confidenceLevel)
    value_at_risk_7d := roundTo 100 (var7d pd confidenceLevel)
    sharpe_ratio := roundTo 1000 sharpeRatio
    maximum_drawdown := roundTo 100 maxDrawdown }

/-! ## Diversification metrics (`calculateDiversificationMetrics`) -/

/-- `const totalValue = holdings.reduce((sum, h) => sum + h.value, 0)` —
recomputed locally inside `calculateDiversificationMetrics`. -/
noncomputable def holdingsTotalValue (holdings : List PricedHolding) : ℝ :=
  holdings.foldl (fun sum h => sum + h.value) 0

/-- The Herfindahl index accumulator: `holdings.reduce((sum, holding) =>
sum + Math.pow(holding.value / totalValue, 2), 0)`. -/
noncomputable def herfindahlIndex (holdings : List PricedHolding) : ℝ :=
  holdings.foldl
    (fun sum h => sum + (h.value / holdingsTotalValue holdings) ^ 2) 0

/-- `effectiveAssets = 1 / herfindahlIndex`. -/
noncomputable def effectiveAssets (holdings : List PricedHolding) : ℝ :=
  1 / herfindahlIndex holdings

/-- `diversificationRatio = effectiveAssets / numberOfAssets`. -/
noncomputable def diversificationRatio (holdings : List PricedHolding) : ℝ :=
  effectiveAssets holdings / holdings.length

/-- The record returned by `calculateDiversificationMetrics`. -/
structure DiversificationMetrics where
  number_of_assets : ℕ
  herfindahl_index : ℝ
  effective_assets : ℝ
  diversification_ratio : ℝ

/-- `calculateDiversificationMetrics`, with the source's rounding
(4 decimals for the index, 2 for effective assets, 3 for the ratio). -/
noncomputable def calculateDiversificationMetrics
    (holdings : List PricedHolding) : DiversificationMetrics :=
  { number_of_assets := holdings.length
    herfindahl_index := roundTo 10000 (herfindahlIndex holdings)
    effective_assets := roundTo 100 (effectiveAssets holdings)
    diversification_ratio := roundTo 1000 (diversificationRatio holdings) }

/-! ## Concentration risk (`calculateConcentrationRisk`) -/

/-- Risk level enumeration (`'low' | 'medium' | 'high'`). -/
inductive RiskLevel where
  | low
  | medium
  | high
deriving DecidableEq

/-- The record returned by `calculateConcentrationRisk`. -/
structure ConcentrationRisk where
  top_holding_percentage : ℝ
  top_3_holdings_percentage : ℝ
  top_5_holdings_percentage : ℝ
  concentration_risk_level : RiskLevel

/-- `calculateConcentrationRisk`: sort holdings descending by value
(`sort((a, b) => b.value - a.value)`, modelled by a stable merge sort on
`value`-descending), take cumulative percentages of the top 1/3/5. -/
noncomputable def calculateConcentrationRisk (holdings : List PricedHolding)
    (totalValue : ℝ) : ConcentrationRisk :=
  let sortedHoldings := holdings.mergeSort (fun a b => decide (b.value ≤ a.value))
  let topHoldingPercentage :=
    ((sortedHoldings.head?.map (fun h => h.value)).getD 0) / totalValue * 100
  let top3HoldingsPercentage :=
    ((sortedHoldings.take 3).foldl (fun sum h => sum + h.value) 0) /
      totalValue * 100
  let top5HoldingsPercentage :=
    ((sortedHoldings.take 5).foldl (fun sum h => sum + h.value) 0) /
      totalValue * 100
  let concentrationRiskLevel :=
    if topHoldingPercentage > 50 then RiskLevel.high
    else if topHoldingPercentage > 25 then RiskLevel.medium
    else RiskLevel.low
  { top_holding_percentage := roundTo 100 topHoldingPercentage
    top_3_holdings_percentage := roundTo 100 top3HoldingsPercentage
    top_5_holdings_percentage := roundTo 100 top5HoldingsPercentage
    concentration_risk_level := concentrationRiskLevel }

/-! ## Asset allocation (`analyzeAssetAllocation`) -/

/-- One entry of the static `assetCategories` table. -/
structure AssetCategory where
  category : String
  symbols : List String
  riskLevel : RiskLevel
  expectedVolatility : ℝ

/-- The static category table, in the source's insertion order.  The
"Meme/Small Cap" catch-all has an empty symbol list. -/
noncomputable def assetCategories : List AssetCategory :=
  [ { category := "Stablecoins"
      symbols := ["USDC", "USDT", "DAI", "BUSD", "TUSD", "FRAX"]
      riskLevel := RiskLevel.low, expectedVolatility := 2 }
  , { category := "Blue Chip"
      symbols := ["BTC", "ETH", "BNB"]
      riskLevel := RiskLevel.medium, expectedVolatility := 60 }
  , { category := "Large Cap Altcoins"
      symbols := ["ADA", "DOT", "LINK", "UNI", "MATIC", "SOL"]
      riskLevel := RiskLevel.medium, expectedVolatility := 80 }
  , { category := "DeFi Tokens"
      symbols := ["AAVE", "COMP", "MKR", "SNX", "YFI", "SUSHI", "CAKE"]
      riskLevel := RiskLevel.high, expectedVolatility := 100 }
  , { category := "Meme/Small Cap"
      symbols := []
      riskLevel := RiskLevel.high, expectedVolatility := 120 } ]

/-- The category a symbol is classified into: the first non-catch-all
category whose symbol list contains it, else "Meme/Small Cap" (the
`categorized` flag of the source loop). -/
noncomputable def categoryOf (sym : String) : AssetCategory :=
  match assetCategories.find?
      (fun c => c.category ≠ "Meme/Small Cap" ∧ sym ∈ c.symbols) with
  | some c => c
  | none => { category := "Meme/Small Cap", symbols := []
              riskLevel := RiskLevel.high, expectedVolatility := 120 }

/-- One entry of the `by_risk_level` output array. -/
structure AllocByLevel where
  risk_level : RiskLevel
  percentage : ℝ
  assets : List String

/-- One entry of the `by_category` output array. -/
structure AllocByCategory where
  category : String
  percentage : ℝ
  volatility : ℝ

/-- The `asset_allocation` output record. -/
structure AssetAllocation where
  by_risk_level : List AllocByLevel
  by_category : List AllocByCategory

/-- Total percentage weight accumulated into one named category by the
holdings loop of `analyzeAssetAllocation`. -/
noncomputable def categoryPercentage (holdings : List PricedHolding)
    (totalValue : ℝ) (name : String) : ℝ :=
  holdings.foldl
    (fun sum h =>
      if (categoryOf h.symbol.toUpper).category = name then
        sum + h.value / totalValue * 100
      else sum) 0

/-- Total percentage weight accumulated into one risk-level bucket. -/
noncomputable def levelPercentage (holdings : List PricedHolding)
    (totalValue : ℝ) (level : RiskLevel) : ℝ :=
  holdings.foldl
    (fun sum h =>
      if (categoryOf h.symbol.toUpper).riskLevel = level then
        sum + h.value / totalValue * 100
      else sum) 0

/-- The symbols pushed into one risk-level bucket, in holdings order. -/
noncomputable def levelAssets (holdings : List PricedHolding)
    (level : RiskLevel) : List String :=
  (holdings.filter
      (fun h => (categoryOf h.symbol.toUpper).riskLevel = level)).map
    (fun h => h.symbol.toUpper)

/-- `analyzeAssetAllocation`.  The source's single mutating loop over
holdings (update the matched category entry and risk bucket, else the
catch-all) is embedded as per-bucket accumulations via `categoryOf`, which
reproduce the loop's final percentages and asset lists.  Risk-level entries
appear in `Object.entries` order low, medium, high; category percentages
are rounded and then filtered to those `> 0`, as in the source. -/
noncomputable def analyzeAssetAllocation (holdings : List PricedHolding)
    (totalValue : ℝ) : AssetAllocation :=
  { by_risk_level :=
      [RiskLevel.low, RiskLevel.medium, RiskLevel.high].map
        (fun lvl =>
          { risk_level := lvl
            percentage := roundTo 100 (levelPercentage holdings totalValue lvl)
            assets := levelAssets holdings lvl })
    by_category :=
      (assetCategories.map
        (fun c =>
          { category := c.category
            percentage :=
              roundTo 100 (categoryPercentage holdings totalValue c.category)
            volatility := c.expectedVolatility })).filter
        (fun e => decide (e.percentage > 0)) }

/-! ## Recommendations (`generateRiskRecommendations`) -/

/-- Recommendation kinds. -/
inductive RecKind where
  | rebalance
  | diversify
  | reduce_risk
  | hedge
deriving DecidableEq

/-- Recommendation priorities. -/
inductive RecPriority where
  | high
  | medium
  | low
deriving DecidableEq

/-- One recommendation; the interpolated `message` and `suggested_action`
presentation strings are elided. -/
structure Recommendation where
  kind : RecKind
  priority : RecPriority
deriving DecidableEq

/-- `generateRiskRecommendations`: four independent rules appended in
source order, then the low-priority fallback when none fired. -/
noncomputable def generateRiskRecommendations (pd : PortfolioData)
    (riskMetrics : RiskMetrics) (concentrationRisk : ConcentrationRisk) :
    List Recommendation :=
  let recommendations :=
    (if concentrationRisk.concentration_risk_level = RiskLevel.high then
        [{ kind := RecKind.rebalance, priority := RecPriority.high }]
      else []) ++
    (if riskMetrics.portfolio_volatility > 100 then
        [{ kind := RecKind.reduce_risk, priority := RecPriority.high }]
      else []) ++
    (if pd.holdings.length < 5 then
        [{ kind := RecKind.diversify, priority := RecPriority.medium }]
      else []) ++
    (if riskMetrics.value_at_risk_1d > pd.total_value * 0.1 then
        [{ kind := RecKind.hedge, priority := RecPriority.high }]
      else [])
  if recommendations.length == 0 then
    [{ kind := RecKind.diversify, priority := RecPriority.low }]
  else recommendations

/-! ## Overall risk score (`calculateOverallRiskScore`) -/

/-- `calculateOverallRiskScore`: `score = 1`, then the four `score +=`
tiers of the source in order, then `Math.min(10, score)`. -/
noncomputable def calculateOverallRiskScore (riskMetrics : RiskMetrics)
    (concentrationRisk : ConcentrationRisk)
    (diversificationMetrics : DiversificationMetrics) : ℝ :=
  let score : ℝ := 1
  let score := score +
    (if riskMetrics.portfolio_volatility > 150 then 3
      else if riskMetrics.portfolio_volatility > 100 then 2
      else if riskMetrics.portfolio_volatility > 50 then 1
      else 0)
  let score := score +
    (if concentrationRisk.top_holding_percentage > 70 then 3
      else if concentrationRisk.top_holding_percentage > 50 then 2
      else if concentrationRisk.top_holding_percentage > 30 then 1
      else 0)
  let score := score +
    (if diversificationMetrics.diversification_ratio < 0.3 then 2
      else if diversificationMetrics.diversification_ratio < 0.5 then 1
      else 0)
  let score := score +
    (if riskMetrics.value_at_risk_1d > 0 then
        if riskMetrics.value_at_risk_1d / 10000 * 100 > 20 then 2
        else if riskMetrics.value_at_risk_1d / 10000 * 100 > 10 then 1
        else 0
      else 0)
  min 10 score

/-! ## The `analyzePortfolioRisk` tool -/

/-- The full risk-analysis output record (wallet address and blockchain
pass-through string fields elided). -/
structure RiskAnalysis where
  portfolio_value : ℝ
  risk_metrics : RiskMetrics
  diversification_metrics : DiversificationMetrics
  concentration_risk : ConcentrationRisk
  asset_allocation : AssetAllocation
  risk_recommendations : List Recommendation
  overall_risk_score : ℝ

/-- `createEmptyRiskAnalysis`: the empty-portfolio terminal result. -/
noncomputable def createEmptyRiskAnalysis : RiskAnalysis :=
  { portfolio_value := 0
    risk_metrics :=
      { portfolio_volatility := 0, value_at_risk_1d := 0
        value_at_risk_7d := 0, sharpe_ratio := 0, maximum_drawdown := 0 }
    diversification_metrics :=
      { number_of_assets := 0, herfindahl_index := 0
        effective_assets := 0, diversification_ratio := 0 }
    concentration_risk :=
      { top_holding_percentage := 0, top_3_holdings_percentage := 0
        top_5_holdings_percentage := 0
        concentration_risk_level := RiskLevel.low }
    asset_allocation := { by_risk_level := [], by_category := [] }
    risk_recommendations :=
      [{ kind := RecKind.diversify, priority := RecPriority.low }]
    overall_risk_score := 1 }

/-- `analyzePortfolioRisk.execute` with the network layer resolved: fetch
the portfolio; on zero priced holdings return the empty analysis, else run
the analytics pipeline.  The `catch` re-throw wraps only failures of the
network layer, which the model receives already resolved. -/
noncomputable def analyzePortfolioRisk (raw : List RawHolding)
    (prices : PriceMap) (confidence_level : ℝ) : RiskAnalysis :=
  let portfolioData := getPortfolioData raw prices
  if portfolioData.holdings.length == 0 then
    createEmptyRiskAnalysis
  else
    let riskMetrics := calculateRiskMetrics portfolioData confidence_level
    let diversificationMetrics :=
      calculateDiversificationMetrics portfolioData.holdings
    let concentrationRisk :=
      calculateConcentrationRisk portfolioData.holdings
        portfolioData.total_value
    let assetAllocation :=
      analyzeAssetAllocation portfolioData.holdings portfolioData.total_value
    let riskRecommendations :=
      generateRiskRecommendations portfolioData riskMetrics concentrationRisk
    let overallRiskScore :=
      calculateOverallRiskScore riskMetrics concentrationRisk
        diversificationMetrics
    { portfolio_value := roundTo 100 portfolioData.total_value
      risk_metrics := riskMetrics
      diversification_metrics := diversificationMetrics
      concentration_risk := concentrationRisk
      asset_allocation := assetAllocation
      risk_recommendations := riskRecommendations
      overall_risk_score := roundTo 10 overallRiskScore }

/-! ## Price alerts (`price-alerts.ts`, email-enabled tool versions)

Prices and thresholds are embedded over `ℚ`; the polled CoinGecko price
feed of one monitor tick is a function `String → Option ℚ` (`none` models
a failed fetch or an absent symbol).  `Date` fields (`createdAt`,
`lastChecked`, `triggeredAt`), message strings, and the email
collaborator's success flag are elided. -/

/-- JavaScript truthiness of an optional number: `undefined` and `0` are
falsy (`!x`, `x && …`). -/
def jsTruthy (o : Option ℚ) : Bool :=
  match o with
  | some v => v != 0
  | none => false

/-- `'high' | 'low'` threshold type of a triggered alert. -/
inductive ThresholdType where
  | low
  | high
deriving DecidableEq

/-- One entry of the `activeAlerts` registry. -/
structure AlertState where
  id : String
  symbol : String
  lowThreshold : Option ℚ
  highThreshold : Option ℚ
  currentPrice : ℚ
  userEmail : Option String
  triggered : Bool
deriving DecidableEq

/-- One entry of the `triggeredAlerts` log (message string and the email
collaborator's `emailSent` flag elided). -/
structure TriggeredAlertRecord where
  alertId : String
  symbol : String
  currentPrice : ℚ
  thresholdType : ThresholdType
  thresholdValue : ℚ
  acknowledged : Bool
deriving DecidableEq

/-- The structured payload of one `userNotifications` entry. -/
structure Notification where
  alertId : String
  symbol : String
  currentPrice : ℚ
  thresholdType : ThresholdType
  thresholdValue : ℚ
  acknowledged : Bool
deriving DecidableEq

/-- The notification pushed by `triggerAlert` for a triggered record. -/
def toNotification (r : TriggeredAlertRecord) : Notification :=
  { alertId := r.alertId
    symbol := r.symbol
    currentPrice := r.currentPrice
    thresholdType := r.thresholdType
    thresholdValue := r.thresholdValue
    acknowledged := false }

/-- The price feed observed during one monitor tick. -/
def PriceFeed := String → Option ℚ

/-- `PriceAlertMonitor.checkSingleAlert`, with `triggerAlert` inlined as
its effect on the alert itself plus the produced record: fetch the price
(`none` models a failed or empty response, the `!currentPrice` guard makes
a `0` price a no-op), update `currentPrice`, then test the low threshold
first and the high threshold second, each guarded by JavaScript truthiness
of the optional threshold.  Returns the updated alert and the triggered
record, if any. -/
def checkSingleAlert (feed : PriceFeed) (alert : AlertState) :
    AlertState × Option TriggeredAlertRecord :=
  match feed alert.symbol with
  | none => (alert, none)
  | some currentPrice =>
    if currentPrice == 0 then (alert, none)
    else
      let updated := { alert with currentPrice := currentPrice }
      if jsTruthy alert.lowThreshold &&
          decide (currentPrice ≤ alert.lowThreshold.getD 0) then
        ({ updated with triggered := true },
          some { alertId := alert.id
                 symbol := alert.symbol
                 currentPrice := currentPrice
                 thresholdType := ThresholdType.low
                 thresholdValue := alert.lowThreshold.getD 0
                 acknowledged := false })
      else if jsTruthy alert.highThreshold &&
          decide (currentPrice ≥ alert.highThreshold.getD 0) then
        ({ updated with triggered := true },
          some { alertId := alert.id
                 symbol := alert.symbol
                 currentPrice := currentPrice
                 thresholdType := ThresholdType.high
                 thresholdValue := alert.highThreshold.getD 0
                 acknowledged := false })
      else (updated, none)

/-- `checkAlerts` filters to non-triggered alerts before checking, so a
triggered alert is left untouched by a tick. -/
def stepAlert (feed : PriceFeed) (alert : AlertState) :
    AlertState × Option TriggeredAlertRecord :=
  if alert.triggered then (alert, none) else checkSingleAlert feed alert

/-- The shared mutable registries: `activeAlerts`, `triggeredAlerts`, and
`userNotifications`. -/
structure MonitorState where
  alerts : List AlertState
  triggeredRecords : List TriggeredAlertRecord
  notifications : List Notification
deriving DecidableEq

/-- One `checkAlerts` tick: every non-triggered alert is checked against
the tick's price feed; each alert only rewrites its own registry entry, and
every trigger appends one `triggeredAlerts` record and one notification. -/
def tick (feed : PriceFeed) (s : MonitorState) : MonitorState :=
  let results := s.alerts.map (stepAlert feed)
  { alerts := results.map Prod.fst
    triggeredRecords := s.triggeredRecords ++ results.filterMap Prod.snd
    notifications :=
      s.notifications ++ (results.filterMap Prod.snd).map toNotification }

/-- A run of the monitor over a sequence of poll-tick price feeds. -/
def runTicks (feeds : List PriceFeed) (s : MonitorState) : MonitorState :=
  feeds.foldl (fun st f => tick f st) s

/-! ## `setupPriceAlert` -/

/-- The failure cases of `setupPriceAlert.execute` (each is thrown and then
reported as a `success: false` result). -/
inductive SetupFailure where
  | validationNoThreshold
  | validationBadOrder
  | priceFetch
deriving DecidableEq

/-- The spec's `ValidationError` class among setup failures. -/
def SetupFailure.isValidationError : SetupFailure → Bool
  | SetupFailure.validationNoThreshold => true
  | SetupFailure.validationBadOrder => true
  | SetupFailure.priceFetch => false

/-- `setupPriceAlert.execute` with the network layer resolved
(`fetchedPrice` is the CoinGecko price for the symbol, `none` for a failed
or empty response; the `!currentPrice` guard makes a `0` price a fetch
failure) and the generated alert id passed in.  On success the new alert is
appended to the registry with `triggered: false`. -/
def setupPriceAlert (symbol : String) (low_threshold high_threshold : Option ℚ)
    (user_email : Option String) (fetchedPrice : Option ℚ) (alertId : String)
    (registry : List AlertState) : Except SetupFailure (List AlertState) :=
  if !jsTruthy low_threshold && !jsTruthy high_threshold then
    Except.error SetupFailure.validationNoThreshold
  else if jsTruthy low_threshold && jsTruthy high_threshold &&
      decide (low_threshold.getD 0 ≥ high_threshold.getD 0) then
    Except.error SetupFailure.validationBadOrder
  else
    match fetchedPrice with
    | none => Except.error SetupFailure.priceFetch
    | some currentPrice =>
      if currentPrice == 0 then Except.error SetupFailure.priceFetch
      else
        Except.ok (registry ++
          [{ id := alertId
             symbol := symbol
             lowThreshold := low_threshold
             highThreshold := high_threshold
             currentPrice := currentPrice
             userEmail := user_email
             triggered := false }])

/-! ## Spec-side definitions and concrete scenario inputs -/

/-- Modelled from the spec (§4.6, claim C5): the overall risk score as the
spec describes it — 1 plus a volatility tier, a concentration tier, a
diversification tier and a VaR tier (the latter against a fixed $10,000
reference portfolio, applied only when `VaR_1d > 0`), clamped to at most
10. -/
noncomputable def overallRiskScoreSpec (riskMetrics : RiskMetrics)
    (concentrationRisk : ConcentrationRisk)
    (diversificationMetrics : DiversificationMetrics) : ℝ :=
  let volatilityTier : ℝ :=
    if riskMetrics.portfolio_volatility > 150 then 3
    else if riskMetrics.portfolio_volatility > 100 then 2
    else if riskMetrics.portfolio_volatility > 50 then 1
    else 0
  let concentrationTier : ℝ :=
    if concentrationRisk.top_holding_percentage > 70 then 3
    else if concentrationRisk.top_holding_percentage > 50 then 2
    else if concentrationRisk.top_holding_percentage > 30 then 1
    else 0
  let diversificationTier : ℝ :=
    if diversificationMetrics.diversification_ratio < 0.3 then 2
    else if diversificationMetrics.diversification_ratio < 0.5 then 1
    else 0
  let varTier : ℝ :=
    if riskMetrics.value_at_risk_1d > 0 then
      if riskMetrics.value_at_risk_1d / 10000 * 100 > 20 then 2
      else if riskMetrics.value_at_risk_1d / 10000 * 100 > 10 then 1
      else 0
    else 0
  min (1 + volatilityTier + concentrationTier + diversificationTier + varTier)
    10

/-- Number of `triggeredAlerts` records held for a given alert id. -/
def recordsFor (s : MonitorState) (i : String) : ℕ :=
  (s.triggeredRecords.filter (fun r => r.alertId == i)).length

/-- Number of notifications held for a given alert id. -/
def notifsFor (s : MonitorState) (i : String) : ℕ :=
  (s.notifications.filter (fun nt => nt.alertId == i)).length

/-- Every registry alert carrying a given id is already triggered (in
particular, vacuously true when no alert has the id). -/
def allTriggeredFor (s : MonitorState) (i : String) : Prop :=
  ∀ b ∈ s.alerts, b.id = i → b.triggered = true

/-- The triggered-alert records appended by one tick over a registry
list. -/
def newRecords (feed : PriceFeed) (l : List AlertState) :
    List TriggeredAlertRecord :=
  (l.map (stepAlert feed)).filterMap Prod.snd

/-- The alert of the spec's scenario for claim C8:
`low_threshold = 145`, `high_threshold = 150`, not yet triggered (the
creation-time price is taken to be the feed's first price). -/
def c8Alert : AlertState :=
  { id := "a1", symbol := "bitcoin"
    lowThreshold := some 145, highThreshold := some 150
    currentPrice := 155, userEmail := none, triggered := false }

/-- A one-symbol price feed returning `p` for `"bitcoin"`. -/
def c8Feed (p : ℚ) : PriceFeed :=
  fun sym => if sym == "bitcoin" then some p else none

/-- The monitor state holding exactly the scenario alert. -/
def c8Start : MonitorState :=
  { alerts := [c8Alert], triggeredRecords := [], notifications := [] }

/-- The priced holding of the spec's single-holding scenario (claim C4):
amount 2.5 at $2000, value $5000, 24h change 2%. -/
noncomputable def c4Holding : PricedHolding :=
  { name := "Ethereum", symbol := "ETH", amount := 2.5
    current_price := 2000, value := 5000, change_24h := 100
    change_percentage_24h := 2, token_address := none }

/-- The single-holding portfolio of the C4 scenario. -/
noncomputable def c4Portfolio : PortfolioData :=
  { total_value := 5000, total_change_24h := 100
    total_change_percentage_24h := 2, holdings := [c4Holding] }

/-- A wallet's fetched holdings none of which will resolve to a price
(claim C3's witness scenario). -/
noncomputable def c3Raw : List RawHolding :=
  [{ symbol := "FOO", name := none, amount := 12, token_address := none }]

/-- A price map with no entries: every lookup misses. -/
def c3NoPrices : PriceMap := fun _ => none

/-- An already-triggered alert (claim C7's witness scenario). -/
def c7Alert : AlertState :=
  { id := "t1", symbol := "bitcoin", lowThreshold := some 100
    highThreshold := some 200, currentPrice := 150
    userEmail := none, triggered := true }

/-- The record produced when `c7Alert` was triggered. -/
def c7Record : TriggeredAlertRecord :=
  { alertId := "t1", symbol := "bitcoin", currentPrice := 210
    thresholdType := ThresholdType.high, thresholdValue := 200
    acknowledged := false }

/-- A monitor state holding the already-triggered alert and its one
record and notification. -/
def c7Start : MonitorState :=
  { alerts := [c7Alert], triggeredRecords := [c7Record]
    notifications := [toNotification c7Record] }

/-- Two holdings of equal value (claim C6's witness scenario). -/
noncomputable def c6Holdings : List PricedHolding :=
  [ { name := "A", symbol := "AAA", amount := 1, current_price := 3
      value := 3, change_24h := 0, change_percentage_24h := 1
      token_address := none }
  , { name := "B", symbol := "BBB", amount := 3, current_price := 1
      value := 3, change_24h := 0, change_percentage_24h := 2
      token_address := none } ]

/-- A price map resolving the symbol `"FOO"` at $4 (claim C2's witness
scenario). -/
noncomputable def c2Prices : PriceMap :=
  fun k => if k == "FOO" then some { usd := 4, usd_24h_change := none }
    else none

/-- The priced holding `c3Raw` resolves to under `c2Prices`. -/
noncomputable def c2Resolved : PricedHolding :=
  { name := "FOO", symbol := String.toUpper "FOO", amount := 12
    current_price := 4, value := 12 * 4, change_24h := 12 * 4 * 0 / 100
    change_percentage_24h := 0, token_address := none }

/-! ## Helper lemmas -/

/-- A `reduce`-style fold accumulating `+ f x` computes the sum of the
mapped list. -/
theorem foldl_add_eq_sum {α : Type} (f : α → ℝ) :
    ∀ (l : List α) (a : ℝ),
      l.foldl (fun s x => s + f x) a = a + (l.map f).sum := by
  intro l
  induction l with
  | nil => intro a; simp
  | cons x t ih =>
      intro a
      simp only [List.foldl_cons, List.map_cons, List.sum_cons, ih]
      ring

/-- Each tier of `calculateOverallRiskScore` is nonnegative and the whole
score lies in `[1, 10]`. -/
theorem calculateOverallRiskScore_bounds (rm : RiskMetrics)
    (cr : ConcentrationRisk) (dm : DiversificationMetrics) :
    1 ≤ calculateOverallRiskScore rm cr dm ∧
      calculateOverallRiskScore rm cr dm ≤ 10 := by
  unfold calculateOverallRiskScore
  refine ⟨?_, min_le_left _ _⟩
  refine le_min (by norm_num) ?_
  have h1 : (0:ℝ) ≤
      (if rm.portfolio_volatility > 150 then (3:ℝ)
        else if rm.portfolio_volatility > 100 then 2
        else if rm.portfolio_volatility > 50 then 1 else 0) := by
    split_ifs <;> norm_num
  have h2 : (0:ℝ) ≤
      (if cr.top_holding_percentage > 70 then (3:ℝ)
        else if cr.top_holding_percentage > 50 then 2
        else if cr.top_holding_percentage > 30 then 1 else 0) := by
    split_ifs <;> norm_num
  have h3 : (0:ℝ) ≤
      (if dm.diversification_ratio < 0.3 then (2:ℝ)
        else if dm.diversification_ratio < 0.5 then 1 else 0) := by
    split_ifs <;> norm_num
  have h4 : (0:ℝ) ≤
      (if rm.value_at_risk_1d > 0 then
          if rm.value_at_risk_1d / 10000 * 100 > 20 then (2:ℝ)
          else if rm.value_at_risk_1d / 10000 * 100 > 10 then 1 else 0
        else 0) := by
    split_ifs <;> norm_num
  linarith

/-- Rounding to one decimal keeps a value of `[1, 10]` inside `[1, 10]`. -/
theorem roundTo_ten_bounds {x : ℝ} (h1 : 1 ≤ x) (h2 : x ≤ 10) :
    1 ≤ roundTo 10 x ∧ roundTo 10 x ≤ 10 := by
  unfold roundTo
  have hlo : (10:ℤ) ≤ round (x * 10) := by
    rw [round_eq]
    exact Int.le_floor.mpr (by push_cast; linarith)
  have hhi : round (x * 10) ≤ (100:ℤ) := by
    rw [round_eq]
    have hfl : ((⌊x * 10 + 1 / 2⌋ : ℤ) : ℝ) ≤ x * 10 + 1 / 2 := Int.floor_le _
    have : ((⌊x * 10 + 1 / 2⌋ : ℤ) : ℝ) < 101 := by linarith
    have : (⌊x * 10 + 1 / 2⌋ : ℤ) < 101 := by exact_mod_cast this
    omega
  constructor
  · rw [le_div_iff₀ (by norm_num : (0:ℝ) < 10)]
    have : ((10:ℤ) : ℝ) ≤ ((round (x * 10) : ℤ) : ℝ) := by exact_mod_cast hlo
    push_cast at this ⊢
    linarith
  · rw [div_le_iff₀ (by norm_num : (0:ℝ) < 10)]
    have : ((round (x * 10) : ℤ) : ℝ) ≤ ((100:ℤ) : ℝ) := by exact_mod_cast hhi
    push_cast at this ⊢
    linarith

/-! ## Claim theorems -/

/-- C5: for every combination of risk metrics, concentration risk and
diversification metrics, `calculateOverallRiskScore` equals 1 plus the
volatility tier, concentration tier, diversification tier and VaR tier of
the spec (the VaR tier measured against the fixed $10,000 reference
portfolio, applied only when `VaR_1d > 0`), clamped to at most 10. -/
theorem overall_risk_score_eq_spec (rm : RiskMetrics)
    (cr : ConcentrationRisk) (dm : DiversificationMetrics) :
    calculateOverallRiskScore rm cr dm = overallRiskScoreSpec rm cr dm := by
  simp only [calculateOverallRiskScore, overallRiskScoreSpec]
  exact min_comm _ _

/-- C1: for every portfolio risk analysis input (any holdings list, price
map and confidence level), the `overall_risk_score` returned by
`analyzePortfolioRisk` lies in the closed interval `[1, 10]`. -/
theorem overall_risk_score_in_range (raw : List RawHolding)
    (prices : PriceMap) (c : ℝ) :
    1 ≤ (analyzePortfolioRisk raw prices c).overall_risk_score ∧
      (analyzePortfolioRisk raw prices c).overall_risk_score ≤ 10 := by
  unfold analyzePortfolioRisk
  by_cases h : (getPortfolioData raw prices).holdings.length == 0
  · simp only [h, if_pos rfl, createEmptyRiskAnalysis]
    norm_num
  · simp only [h]
    rw [if_neg (by simp [h])]
    have hb := calculateOverallRiskScore_bounds
      (calculateRiskMetrics (getPortfolioData raw prices) c)
      (calculateConcentrationRisk (getPortfolioData raw prices).holdings
        (getPortfolioData raw prices).total_value)
      (calculateDiversificationMetrics (getPortfolioData raw prices).holdings)
    exact roundTo_ten_bounds hb.1 hb.2

/-- C4: for every portfolio and confidence level, the risk metrics are the
rounded values of: annualized volatility `(Σ weightᵢ × |changeᵢ|) × √365`
with `weightᵢ = valueᵢ / total_value`; `VaR_1d = total_value × (daily
volatility fraction) × z(c)` with the z table `{0.90 → 1.282, 0.95 → 1.645,
0.99 → 2.326}` defaulting to 1.645; and `VaR_7d = VaR_1d × √7`.  In
particular, a single holding of value $5000 at the default confidence level
has `VaR_1d = 5000 × (|change%| / 100) × 1.645`. -/
theorem risk_metrics_formulas (pd : PortfolioData) (c : ℝ) :
    (calculateRiskMetrics pd c).portfolio_volatility =
      roundTo 100 (annualizedVolatility pd) ∧
    (calculateRiskMetrics pd c).value_at_risk_1d = roundTo 100 (var1d pd c) ∧
    (calculateRiskMetrics pd c).value_at_risk_7d = roundTo 100 (var7d pd c) ∧
    annualizedVolatility pd =
      (pd.holdings.map
        (fun h => h.value / pd.total_value * |h.change_percentage_24h|)).sum *
        Real.sqrt 365 ∧
    var1d pd c = pd.total_value * (portfolioVolatility pd / 100) * getZScore c ∧
    var7d pd c = var1d pd c * Real.sqrt 7 ∧
    getZScore 0.9 = 1.282 ∧
    getZScore 0.95 = 1.645 ∧
    getZScore 0.99 = 2.326 ∧
    (∀ c', c' ≠ 0.9 → c' ≠ 0.95 → c' ≠ 0.99 → getZScore c' = 1.645) ∧
    (∀ h, pd.holdings = [h] → h.value = 5000 → pd.total_value = 5000 →
      var1d pd 0.95 = 5000 * (|h.change_percentage_24h| / 100) * 1.645) := by
  refine ⟨rfl, rfl, rfl, ?_, ?_, ?_, ?_, ?_, ?_, ?_, ?_⟩
  · unfold annualizedVolatility portfolioVolatility
    rw [foldl_add_eq_sum
      (fun h : PricedHolding =>
        h.value / pd.total_value * |h.change_percentage_24h|)]
    ring
  · unfold var1d; ring
  · unfold var7d var1d; ring
  · norm_num [getZScore]
  · norm_num [getZScore]
  · norm_num [getZScore]
  · intro c' h1 h2 h3
    unfold getZScore
    rw [if_neg h1, if_neg h2, if_neg h3]
  · intro h hh hv ht
    have hz : getZScore 0.95 = 1.645 := by norm_num [getZScore]
    have hvol : portfolioVolatility pd = |h.change_percentage_24h| := by
      unfold portfolioVolatility
      rw [hh]
      simp only [List.foldl_cons, List.foldl_nil, hv, ht, zero_add]
      norm_num
    unfold var1d
    rw [hz, hvol, ht]
    ring

/-- Witness for C4 at the scenario portfolio (single holding of value
$5000, 24h change 2%, default confidence level). -/
theorem risk_metrics_formulas_witness :
    var1d c4Portfolio 0.95 =
      5000 * (|c4Holding.change_percentage_24h| / 100) * 1.645 ∧
    getZScore 0.5 = 1.645 :=
  ⟨(risk_metrics_formulas c4Portfolio 0.95).2.2.2.2.2.2.2.2.2.2
      c4Holding rfl rfl rfl,
    (risk_metrics_formulas c4Portfolio 0.95).2.2.2.2.2.2.2.2.2.1
      0.5 (by norm_num) (by norm_num) (by norm_num)⟩

/-- The valuation loop appends exactly the holdings that resolve to a
price. -/
theorem portfolioLoop_holdings (prices : PriceMap) :
    ∀ (raw : List RawHolding) (acc : ℝ × ℝ × List PricedHolding),
      (raw.foldl (portfolioStep prices) acc).2.2 =
        acc.2.2 ++ raw.filterMap (resolveHolding prices) := by
  intro raw
  induction raw with
  | nil => intro acc; simp
  | cons h t ih =>
      intro acc
      simp only [List.foldl_cons, List.filterMap_cons]
      rw [ih]
      cases hp : prices (priceKey h) with
      | none => simp [portfolioStep, resolveHolding, hp]
      | some p =>
          by_cases hu : p.usd > 0
          · simp [portfolioStep, resolveHolding, hp, hu]
          · simp [portfolioStep, resolveHolding, hp, hu]

/-- The valuation loop's `totalValue` accumulator sums the values of the
resolved holdings. -/
theorem portfolioLoop_totalValue (prices : PriceMap) :
    ∀ (raw : List RawHolding) (acc : ℝ × ℝ × List PricedHolding),
      (raw.foldl (portfolioStep prices) acc).1 =
        acc.1 +
          ((raw.filterMap (resolveHolding prices)).map
            (fun h => h.value)).sum := by
  intro raw
  induction raw with
  | nil => intro acc; simp
  | cons h t ih =>
      intro acc
      simp only [List.foldl_cons, List.filterMap_cons]
      cases hp : prices (priceKey h) with
      | none =>
          rw [ih]
          simp [portfolioStep, resolveHolding, hp]
      | some p =>
          by_cases hu : p.usd > 0
          · rw [ih]
            simp only [portfolioStep, resolveHolding, hp, hu, if_pos,
              List.filterMap_cons_some, List.map_cons, List.sum_cons]
            ring
          · rw [ih]
            simp [portfolioStep, resolveHolding, hp, hu]

/-- C2: for every fetched holdings list and price map, the portfolio
produced by `getPortfolioData` satisfies `total_value = Σ holding.value`;
its holdings are exactly the input holdings that resolve to a positive
price (missing or non-positive prices are dropped entirely, contributing
nothing); and every kept holding has `value = amount × unit_price`. -/
theorem portfolio_valuation_correct (raw : List RawHolding)
    (prices : PriceMap) :
    (getPortfolioData raw prices).total_value =
      ((getPortfolioData raw prices).holdings.map (fun h => h.value)).sum ∧
    (getPortfolioData raw prices).holdings =
      raw.filterMap (resolveHolding prices) ∧
    ∀ h ∈ (getPortfolioData raw prices).holdings,
      h.value = h.amount * h.current_price := by
  unfold getPortfolioData
  by_cases h0 : raw.length == 0
  · have : raw = [] := List.length_eq_zero.mp (by simpa using h0)
    subst this
    simp
  · simp only [h0, Bool.false_eq_true, if_false]
    refine ⟨?_, ?_, ?_⟩
    · rw [portfolioLoop_totalValue, portfolioLoop_holdings]
      simp
    · rw [portfolioLoop_holdings]
      simp
    · rw [portfolioLoop_holdings]
      simp only [List.nil_append]
      intro h hm
      rw [List.mem_filterMap] at hm
      obtain ⟨a, -, ha⟩ := hm
      unfold resolveHolding at ha
      cases hp : prices (priceKey a) with
      | none => rw [hp] at ha; cases ha
      | some p =>
          rw [hp] at ha
          dsimp only at ha
          by_cases hu : p.usd > 0
          · rw [if_pos hu] at ha
            cases ha
            rfl
          · rw [if_neg hu] at ha
            cases ha

/-- Witness for C2 at a one-holding wallet whose symbol resolves to a
price: the kept holding's value is its amount times its unit price. -/
theorem portfolio_valuation_correct_witness :
    (getPortfolioData c3Raw c2Prices).total_value =
      ((getPortfolioData c3Raw c2Prices).holdings.map (fun h => h.value)).sum ∧
    (getPortfolioData c3Raw c2Prices).holdings = [c2Resolved] ∧
    c2Resolved.value = c2Resolved.amount * c2Resolved.current_price := by
  have hstep : portfolioStep c2Prices (0, 0, [])
      { symbol := "FOO", name := none, amount := 12, token_address := none } =
      (0 + 12 * 4, 0 + 12 * 4 * 0 / 100, [] ++ [c2Resolved]) := by
    rw [portfolioStep]
    rw [show c2Prices (priceKey
        { symbol := "FOO", name := none, amount := (12:ℝ),
          token_address := none }) =
      some { usd := 4, usd_24h_change := none } from rfl]
    dsimp only
    rw [if_pos (by norm_num : (4:ℝ) > 0)]
    rfl
  have hh : (getPortfolioData c3Raw c2Prices).holdings = [c2Resolved] := by
    rw [getPortfolioData, c3Raw]
    simp only [List.length_cons, List.length_nil, List.foldl_cons,
      List.foldl_nil, hstep]
    rfl
  exact ⟨(portfolio_valuation_correct c3Raw c2Prices).1, hh,
    (portfolio_valuation_correct c3Raw c2Prices).2.2 c2Resolved
      (by rw [hh]; exact List.mem_singleton.mpr rfl)⟩

/-- C3: for every wallet whose portfolio resolves to zero priced holdings,
`analyzePortfolioRisk` returns (as a total function, throwing nothing) the
empty-portfolio terminal result: the whole `createEmptyRiskAnalysis`
record, hence `portfolio_value = 0`, `overall_risk_score = 1`, and exactly
one low-priority recommendation. -/
theorem empty_portfolio_terminal (raw : List RawHolding) (prices : PriceMap)
    (c : ℝ) (h : (getPortfolioData raw prices).holdings = []) :
    analyzePortfolioRisk raw prices c = createEmptyRiskAnalysis ∧
    (analyzePortfolioRisk raw prices c).portfolio_value = 0 ∧
    (analyzePortfolioRisk raw prices c).overall_risk_score = 1 ∧
    (analyzePortfolioRisk raw prices c).risk_recommendations =
      [{ kind := RecKind.diversify, priority := RecPriority.low }] := by
  have he : analyzePortfolioRisk raw prices c = createEmptyRiskAnalysis := by
    simp only [analyzePortfolioRisk, h]
    rfl
  rw [he]
  exact ⟨rfl, rfl, rfl, rfl⟩

/-- Witness for C3: a wallet with one fetched holding and an empty price
map resolves to zero priced holdings and receives the terminal result. -/
theorem empty_portfolio_terminal_witness :
    (getPortfolioData c3Raw c3NoPrices).holdings = [] ∧
    (analyzePortfolioRisk c3Raw c3NoPrices 0.95).overall_risk_score = 1 ∧
    (analyzePortfolioRisk c3Raw c3NoPrices 0.95).risk_recommendations =
      [{ kind := RecKind.diversify, priority := RecPriority.low }] :=
  ⟨rfl,
    (empty_portfolio_terminal c3Raw c3NoPrices 0.95 rfl).2.2.1,
    (empty_portfolio_terminal c3Raw c3NoPrices 0.95 rfl).2.2.2⟩

/-- C9 counterexample: `low_threshold = 5` and `high_threshold = 0` are
both given and `5 ≥ 0`, yet `setupPriceAlert` raises no `ValidationError` —
it creates the alert (the `0` threshold short-circuits both validation
guards by JavaScript falsiness). -/
theorem setup_validation_counterexample :
    (5:ℚ) ≥ 0 ∧
    (some (5:ℚ)).isSome = true ∧
    (some (0:ℚ)).isSome = true ∧
    setupPriceAlert "x" (some 5) (some 0) none (some 100) "a1" [] =
      Except.ok
        [{ id := "a1", symbol := "x", lowThreshold := some 5
           highThreshold := some 0, currentPrice := 100
           userEmail := none, triggered := false }] :=
  ⟨by norm_num, rfl, rfl, rfl⟩

/-- C9 (amended): a `setupPriceAlert` call fails with a `ValidationError`
and creates no alert when neither threshold is truthy (absent or zero), and
when both thresholds are truthy (given and nonzero) with
`low_threshold ≥ high_threshold`; in particular
`setup_price_alert("x", low_threshold := 200, high_threshold := 100)`
fails with the ordering `ValidationError`. -/
theorem setup_validation_amended :
    (∀ sym low high email fp aid reg, jsTruthy low = false →
      jsTruthy high = false →
      setupPriceAlert sym low high email fp aid reg =
        Except.error SetupFailure.validationNoThreshold) ∧
    (∀ sym low high email fp aid reg, jsTruthy low = true →
      jsTruthy high = true → low.getD 0 ≥ high.getD 0 →
      setupPriceAlert sym low high email fp aid reg =
        Except.error SetupFailure.validationBadOrder) ∧
    SetupFailure.validationNoThreshold.isValidationError = true ∧
    SetupFailure.validationBadOrder.isValidationError = true ∧
    (∀ email fp aid reg,
      setupPriceAlert "x" (some 200) (some 100) email fp aid reg =
        Except.error SetupFailure.validationBadOrder) := by
  refine ⟨?_, ?_, rfl, rfl, ?_⟩
  · intro sym low high email fp aid reg h1 h2
    unfold setupPriceAlert
    rw [if_pos (by rw [h1, h2]; rfl)]
  · intro sym low high email fp aid reg h1 h2 h3
    unfold setupPriceAlert
    rw [if_neg (by rw [h1]; simp), if_pos (by rw [h1, h2]; simpa using h3)]
  · intro email fp aid reg
    rfl

/-- Witness for the amended C9 at concrete calls: a zero-only threshold
call and the spec's `(200, 100)` call. -/
theorem setup_validation_amended_witness :
    setupPriceAlert "x" (some 0) none none (some 1) "a1" [] =
      Except.error SetupFailure.validationNoThreshold ∧
    setupPriceAlert "x" (some 200) (some 100) none (some 1) "a2" [] =
      Except.error SetupFailure.validationBadOrder :=
  ⟨setup_validation_amended.1 "x" (some 0) none none (some 1) "a1" [] rfl rfl,
    setup_validation_amended.2.1 "x" (some 200) (some 100) none (some 1)
      "a2" [] rfl rfl (by norm_num)⟩

/-- C10: `setupPriceAlert` treats a zero threshold as absent: a call whose
only supplied threshold is `0` fails with the no-threshold
`ValidationError`; the ordering check is skipped whenever either supplied
threshold is `0`; and during monitoring an alert whose `lowThreshold` is
`0` can never fire the low-threshold branch. -/
theorem zero_threshold_treated_as_absent :
    (∀ sym email fp aid reg,
      setupPriceAlert sym (some 0) none email fp aid reg =
        Except.error SetupFailure.validationNoThreshold) ∧
    (∀ sym email fp aid reg,
      setupPriceAlert sym none (some 0) email fp aid reg =
        Except.error SetupFailure.validationNoThreshold) ∧
    (∀ sym low high email fp aid reg, low = some 0 ∨ high = some 0 →
      setupPriceAlert sym low high email fp aid reg ≠
        Except.error SetupFailure.validationBadOrder) ∧
    (∀ feed a a' r, a.lowThreshold = some 0 →
      checkSingleAlert feed a = (a', some r) →
      r.thresholdType = ThresholdType.high) := by
  refine ⟨?_, ?_, ?_, ?_⟩
  · intro sym email fp aid reg; rfl
  · intro sym email fp aid reg; rfl
  · intro sym low high email fp aid reg hz
    unfold setupPriceAlert
    split_ifs with h1 h2
    · simp
    · exfalso
      rcases hz with hz | hz <;> subst hz <;> simp [jsTruthy] at h2
    · cases fp with
      | none => simp
      | some p =>
          dsimp only
          by_cases hp : p == 0
          · rw [if_pos hp]; simp
          · rw [if_neg hp]; simp
  · intro feed a a' r hlow hck
    unfold checkSingleAlert at hck
    cases hf : feed a.symbol with
    | none =>
        rw [hf] at hck
        cases hck
    | some p =>
        rw [hf] at hck
        dsimp only at hck
        by_cases hp : p == 0
        · rw [if_pos hp] at hck; cases hck
        · rw [if_neg hp] at hck
          rw [hlow] at hck
          rw [if_neg (by simp [jsTruthy])] at hck
          by_cases hh : (jsTruthy a.highThreshold &&
              decide (p ≥ a.highThreshold.getD 0)) = true
          · rw [if_pos hh] at hck
            cases hck
            rfl
          · rw [if_neg hh] at hck
            cases hck

/-- Witness for C10 at concrete inputs: a zero-only-threshold setup call,
a zero-high ordering skip, and a monitored alert with `lowThreshold = 0`
triggering only via the high branch. -/
theorem zero_threshold_treated_as_absent_witness :
    setupPriceAlert "btc" (some 0) none none (some 7) "b1" [] =
      Except.error SetupFailure.validationNoThreshold ∧
    setupPriceAlert "btc" (some 5) (some 0) none (some 7) "b2" [] ≠
      Except.error SetupFailure.validationBadOrder ∧
    ({ alertId := "b3", symbol := "btc", currentPrice := 200
       thresholdType := ThresholdType.high, thresholdValue := 150
       acknowledged := false } : TriggeredAlertRecord).thresholdType =
      ThresholdType.high :=
  ⟨zero_threshold_treated_as_absent.1 "btc" none (some 7) "b1" [],
    zero_threshold_treated_as_absent.2.2.1 "btc" (some 5) (some 0) none
      (some 7) "b2" [] (Or.inr rfl),
    zero_threshold_treated_as_absent.2.2.2 (fun _ => some 200)
      { id := "b3", symbol := "btc", lowThreshold := some 0
        highThreshold := some 150, currentPrice := 1
        userEmail := none, triggered := false }
      { id := "b3", symbol := "btc", lowThreshold := some 0
        highThreshold := some 150, currentPrice := 200
        userEmail := none, triggered := true }
      { alertId := "b3", symbol := "btc", currentPrice := 200
        thresholdType := ThresholdType.high, thresholdValue := 150
        acknowledged := false }
      rfl rfl⟩

/-- C8 counterexample: for the alert with `low_threshold = 145` and
`high_threshold = 150` under the price sequence `[155, 148, 143]`, the
alert is already TRIGGERED after the first poll (155 ≥ 150, the
high-threshold branch) — not first at the price-143 step via the
low-threshold branch as claimed: the whole run produces exactly the one
high-branch record at price 155. -/
theorem alert_scenario_counterexample :
    ((tick (c8Feed 155) c8Start).alerts.map (fun a => a.triggered)) =
      [true] ∧
    (tick (c8Feed 155) c8Start).triggeredRecords =
      [{ alertId := "a1", symbol := "bitcoin", currentPrice := 155
         thresholdType := ThresholdType.high, thresholdValue := 150
         acknowledged := false }] ∧
    (runTicks [c8Feed 155, c8Feed 148, c8Feed 143] c8Start).triggeredRecords =
      [{ alertId := "a1", symbol := "bitcoin", currentPrice := 155
         thresholdType := ThresholdType.high, thresholdValue := 150
         acknowledged := false }] :=
  ⟨rfl, rfl, rfl⟩

/-- C8 (amended): under the price sequence `[155, 148, 143]` the scenario
alert transitions to TRIGGERED at the first step (price 155 ≥ high
threshold 150, via the high-threshold branch) and never re-triggers on the
later polls; in general an untriggered alert transitions exactly when the
fetched price `p` is nonzero and `p ≤ low_threshold` or
`p ≥ high_threshold` (each guarded by threshold truthiness), and the
low-threshold branch is evaluated first when both would match. -/
theorem alert_scenario_amended :
    ((runTicks [c8Feed 155, c8Feed 148, c8Feed 143] c8Start).alerts.map
        (fun a => a.triggered)) = [true] ∧
    (runTicks [c8Feed 155, c8Feed 148, c8Feed 143] c8Start).triggeredRecords =
      [{ alertId := "a1", symbol := "bitcoin", currentPrice := 155
         thresholdType := ThresholdType.high, thresholdValue := 150
         acknowledged := false }] ∧
    (∀ feed a a' ev, a.triggered = false →
      checkSingleAlert feed a = (a', ev) →
      (a'.triggered = true ↔ ∃ p, feed a.symbol = some p ∧ p ≠ 0 ∧
        ((jsTruthy a.lowThreshold = true ∧ p ≤ a.lowThreshold.getD 0) ∨
          (jsTruthy a.highThreshold = true ∧
            p ≥ a.highThreshold.getD 0)))) ∧
    (∀ feed a a' r p, checkSingleAlert feed a = (a', some r) →
      feed a.symbol = some p → jsTruthy a.lowThreshold = true →
      p ≤ a.lowThreshold.getD 0 →
      r.thresholdType = ThresholdType.low) := by
  refine ⟨rfl, rfl, ?_, ?_⟩
  · intro feed a a' ev ht hck
    unfold checkSingleAlert at hck
    cases hf : feed a.symbol with
    | none =>
        rw [hf] at hck
        injection hck with h1 h2
        subst h1
        simp [ht, hf]
    | some p =>
        rw [hf] at hck
        dsimp only at hck
        by_cases hp : p == 0
        · rw [if_pos hp] at hck
          injection hck with h1 h2
          subst h1
          have hp0 : p = 0 := by simpa using hp
          subst hp0
          simp [ht, hf]
        · rw [if_neg hp] at hck
          have hp0 : p ≠ 0 := by simpa using hp
          by_cases hl : (jsTruthy a.lowThreshold &&
              decide (p ≤ a.lowThreshold.getD 0)) = true
          · rw [if_pos hl] at hck
            injection hck with h1 h2
            subst h1
            rw [Bool.and_eq_true, decide_eq_true_iff] at hl
            simp only [hf]
            constructor
            · intro _
              exact ⟨p, rfl, hp0, Or.inl ⟨hl.1, hl.2⟩⟩
            · intro _
              trivial
          · rw [if_neg hl] at hck
            by_cases hh : (jsTruthy a.highThreshold &&
                decide (p ≥ a.highThreshold.getD 0)) = true
            · rw [if_pos hh] at hck
              injection hck with h1 h2
              subst h1
              rw [Bool.and_eq_true, decide_eq_true_iff] at hh
              simp only [hf]
              constructor
              · intro _
                exact ⟨p, rfl, hp0, Or.inr ⟨hh.1, hh.2⟩⟩
              · intro _
                trivial
            · rw [if_neg hh] at hck
              injection hck with h1 h2
              subst h1
              simp only [ht, hf]
              constructor
              · intro hcon
                exact absurd hcon (by simp [ht])
              · rintro ⟨q, hq, hq0, hdisj⟩
                injection hq with hq
                subst hq
                exfalso
                rcases hdisj with ⟨htr, hle⟩ | ⟨htr, hge⟩
                · exact hl (by rw [htr]; simpa using hle)
                · exact hh (by rw [htr]; simpa using hge)
  · intro feed a a' r p hck hf htru hle
    unfold checkSingleAlert at hck
    rw [hf] at hck
    dsimp only at hck
    by_cases hp : p == 0
    · rw [if_pos hp] at hck
      injection hck with h1 h2
      cases h2
    · rw [if_neg hp] at hck
      rw [if_pos (by rw [htru]; simpa using hle)] at hck
      injection hck with h1 h2
      injection h2 with h2
      subst h2
      rfl

/-- Witness for the amended C8: the general transition condition and
low-first tie-break evaluated at a concrete alert where both thresholds
match the fetched price. -/
theorem alert_scenario_amended_witness :
    (({ id := "w1", symbol := "sol", lowThreshold := some 150
        highThreshold := some 140, currentPrice := 145
        userEmail := none, triggered := true } : AlertState).triggered = true ↔
      ∃ p, (fun _ : String => some (145:ℚ)) "sol" = some p ∧ p ≠ 0 ∧
        ((jsTruthy (some (150:ℚ)) = true ∧ p ≤ (some (150:ℚ)).getD 0) ∨
          (jsTruthy (some (140:ℚ)) = true ∧ p ≥ (some (140:ℚ)).getD 0))) ∧
    ({ alertId := "w1", symbol := "sol", currentPrice := 145
       thresholdType := ThresholdType.low, thresholdValue := 150
       acknowledged := false } : TriggeredAlertRecord).thresholdType =
      ThresholdType.low :=
  ⟨alert_scenario_amended.2.2.1 (fun _ => some 145)
      { id := "w1", symbol := "sol", lowThreshold := some 150
        highThreshold := some 140, currentPrice := 99
        userEmail := none, triggered := false }
      { id := "w1", symbol := "sol", lowThreshold := some 150
        highThreshold := some 140, currentPrice := 145
        userEmail := none, triggered := true }
      (some { alertId := "w1", symbol := "sol", currentPrice := 145
              thresholdType := ThresholdType.low, thresholdValue := 150
              acknowledged := false })
      rfl rfl,
    alert_scenario_amended.2.2.2 (fun _ => some 145)
      { id := "w1", symbol := "sol", lowThreshold := some 150
        highThreshold := some 140, currentPrice := 99
        userEmail := none, triggered := false }
      { id := "w1", symbol := "sol", lowThreshold := some 150
        highThreshold := some 140, currentPrice := 145
        userEmail := none, triggered := true }
      { alertId := "w1", symbol := "sol", currentPrice := 145
        thresholdType := ThresholdType.low, thresholdValue := 150
        acknowledged := false }
      145 rfl rfl rfl (by norm_num)⟩

/-- Branch analysis of one alert step: the step preserves the alert id;
when no record is produced the triggered flag is unchanged; a produced
record carries the alert's id and leaves the alert triggered; and a step on
an already-triggered alert is the identity with no record. -/
theorem stepAlert_shape (f : PriceFeed) (a : AlertState) :
    ((stepAlert f a).1).id = a.id ∧
    ((stepAlert f a).2 = none →
      ((stepAlert f a).1).triggered = a.triggered) ∧
    (∀ r, (stepAlert f a).2 = some r →
      r.alertId = a.id ∧ ((stepAlert f a).1).triggered = true) ∧
    (a.triggered = true → stepAlert f a = (a, none)) := by
  by_cases ht : a.triggered
  · simp [stepAlert, ht]
  · cases hf : f a.symbol with
    | none => simp [stepAlert, checkSingleAlert, ht, hf]
    | some p =>
        by_cases hp : p == 0
        · simp [stepAlert, checkSingleAlert, ht, hf, hp]
        · by_cases hl : (jsTruthy a.lowThreshold &&
              decide (p ≤ a.lowThreshold.getD 0)) = true
          · simp [stepAlert, checkSingleAlert, ht, hf, hp, hl]
          · by_cases hh : (jsTruthy a.highThreshold &&
                decide (p ≥ a.highThreshold.getD 0)) = true
            · simp [stepAlert, checkSingleAlert, ht, hf, hp, hl, hh]
            · simp [stepAlert, checkSingleAlert, ht, hf, hp, hl, hh]

/-- The id of a stepped alert. -/
theorem stepAlert_fst_id (f : PriceFeed) (a : AlertState) :
    ((stepAlert f a).1).id = a.id :=
  (stepAlert_shape f a).1

/-- A tick maps each registry alert through `stepAlert`. -/
theorem tick_alerts (f : PriceFeed) (s : MonitorState) :
    (tick f s).alerts = s.alerts.map (fun a => (stepAlert f a).1) := by
  simp [tick, List.map_map]

/-- A tick preserves the list of registry alert ids (no alert is removed
or added). -/
theorem tick_ids (f : PriceFeed) (s : MonitorState) :
    (tick f s).alerts.map (fun a => a.id) =
      s.alerts.map (fun a => a.id) := by
  rw [tick_alerts, List.map_map]
  exact List.map_congr_left (fun a _ => stepAlert_fst_id f a)

/-- A tick preserves distinctness of registry ids. -/
theorem tick_nodup (f : PriceFeed) (s : MonitorState)
    (hnd : (s.alerts.map (fun a => a.id)).Nodup) :
    ((tick f s).alerts.map (fun a => a.id)).Nodup := by
  rw [tick_ids]
  exact hnd

/-- The records log after a tick. -/
theorem recordsFor_tick (f : PriceFeed) (s : MonitorState) (i : String) :
    recordsFor (tick f s) i =
      recordsFor s i +
        ((newRecords f s.alerts).filter (fun r => r.alertId == i)).length := by
  simp [recordsFor, tick, newRecords, List.filter_append]

/-- The notifications log after a tick mirrors the records log. -/
theorem notifsFor_tick (f : PriceFeed) (s : MonitorState) (i : String) :
    notifsFor (tick f s) i =
      notifsFor s i +
        ((newRecords f s.alerts).filter (fun r => r.alertId == i)).length := by
  unfold notifsFor
  simp only [tick, newRecords, List.filter_append, List.length_append]
  congr 1
  rw [List.filter_map toNotification, List.length_map]
  rfl

/-- When every alert carrying an id is already triggered, a tick appends no
record for that id. -/
theorem newRecords_filter_nil (f : PriceFeed) (i : String) :
    ∀ (l : List AlertState), (∀ b ∈ l, b.id = i → b.triggered = true) →
      (newRecords f l).filter (fun r => r.alertId == i) = [] := by
  intro l
  induction l with
  | nil => intro _; rfl
  | cons b t ih =>
      intro hall
      cases he : (stepAlert f b).2 with
      | none =>
          simp only [newRecords, List.map_cons, List.filterMap_cons, he]
          exact ih (fun c hc hci => hall c (List.mem_cons_of_mem _ hc) hci)
      | some r =>
          have hrid : r.alertId = b.id := ((stepAlert_shape f b).2.2.1 r he).1
          by_cases hbi : b.id = i
          · exfalso
            have hbt : b.triggered = true := hall b (List.mem_cons_self b t) hbi
            have := (stepAlert_shape f b).2.2.2 hbt
            rw [this] at he
            cases he
          · simp only [newRecords, List.map_cons, List.filterMap_cons, he,
              List.filter_cons]
            rw [show (r.alertId == i) = false from by
              rw [hrid]; exact beq_eq_false_iff_ne.mpr hbi]
            simp only [Bool.false_eq_true, if_false]
            exact ih (fun c hc hci => hall c (List.mem_cons_of_mem _ hc) hci)

/-- A record appended for an id comes from a registry alert with that
id. -/
theorem newRecords_mem_id (f : PriceFeed) (i : String) (l : List AlertState)
    (h : (newRecords f l).filter (fun r => r.alertId == i) ≠ []) :
    ∃ c ∈ l, c.id = i := by
  obtain ⟨r, hr⟩ := List.exists_mem_of_ne_nil _ h
  have hrmem := (List.mem_filter.mp hr).1
  have hri : (r.alertId == i) = true := (List.mem_filter.mp hr).2
  rw [newRecords, List.mem_filterMap] at hrmem
  obtain ⟨pr, hpr, hpr2⟩ := hrmem
  rw [List.mem_map] at hpr
  obtain ⟨c, hc, rfl⟩ := hpr
  refine ⟨c, hc, ?_⟩
  have := ((stepAlert_shape f c).2.2.1 r hpr2).1
  rw [← this]
  exact (beq_iff_eq).mp hri

/-- With distinct registry ids, a tick appends at most one record for any
id, and if it does append one then afterwards every registry alert with
that id is triggered. -/
theorem newRecords_count_core (f : PriceFeed) (i : String) :
    ∀ (l : List AlertState), (l.map (fun a => a.id)).Nodup →
      ((newRecords f l).filter (fun r => r.alertId == i)).length ≤ 1 ∧
      (1 ≤ ((newRecords f l).filter (fun r => r.alertId == i)).length →
        ∀ b' ∈ l.map (fun a => (stepAlert f a).1), b'.id = i →
          b'.triggered = true) := by
  intro l
  induction l with
  | nil =>
      intro _
      exact ⟨by simp [newRecords], by simp [newRecords]⟩
  | cons b t ih =>
      intro hnd
      rw [List.map_cons, List.nodup_cons] at hnd
      obtain ⟨hb, hndt⟩ := hnd
      obtain ⟨iht1, iht2⟩ := ih hndt
      cases he : (stepAlert f b).2 with
      | none =>
          constructor
          · simp only [newRecords, List.map_cons, List.filterMap_cons, he]
            exact iht1
          · intro hlen b' hb' hbi
            simp only [newRecords, List.map_cons, List.filterMap_cons, he]
              at hlen
            obtain ⟨c, hc, hci⟩ := newRecords_mem_id f i t
              (List.ne_nil_of_length_pos hlen)
            rw [List.map_cons] at hb'
            rcases List.mem_cons.mp hb' with rfl | hb'
            · exfalso
              apply hb
              rw [stepAlert_fst_id] at hbi
              rw [hbi, ← hci]
              exact List.mem_map_of_mem _ hc
            · exact iht2 hlen b' hb' hbi
      | some r =>
          have hrid : r.alertId = b.id := ((stepAlert_shape f b).2.2.1 r he).1
          have hbtrig : ((stepAlert f b).1).triggered = true :=
            ((stepAlert_shape f b).2.2.1 r he).2
          by_cases hbi : b.id = i
          · have htnone :
                (newRecords f t).filter (fun r => r.alertId == i) = [] := by
              apply newRecords_filter_nil
              intro c hc hci
              exfalso
              apply hb
              rw [hbi, ← hci]
              exact List.mem_map_of_mem _ hc
            constructor
            · simp only [newRecords, List.map_cons, List.filterMap_cons, he,
                List.filter_cons]
              rw [show (r.alertId == i) = true from by
                rw [hrid, hbi]; exact beq_self_eq_true i]
              simp only [if_true]
              rw [show ((t.map (stepAlert f)).filterMap Prod.snd).filter
                  (fun r => r.alertId == i) =
                  (newRecords f t).filter (fun r => r.alertId == i) from rfl,
                htnone]
              simp
            · intro _ b' hb' hbi'
              rw [List.map_cons] at hb'
              rcases List.mem_cons.mp hb' with rfl | hb'
              · exact hbtrig
              · exfalso
                obtain ⟨c, hc, rfl⟩ := List.mem_map.mp hb'
                rw [stepAlert_fst_id] at hbi'
                apply hb
                rw [hbi, ← hbi']
                exact List.mem_map_of_mem _ hc
          · have hfr : (r.alertId == i) = false := by
              rw [hrid]; exact beq_eq_false_iff_ne.mpr hbi
            constructor
            · simp only [newRecords, List.map_cons, List.filterMap_cons, he,
                List.filter_cons, hfr, Bool.false_eq_true, if_false]
              exact iht1
            · intro hlen b' hb' hbi'
              simp only [newRecords, List.map_cons, List.filterMap_cons, he,
                List.filter_cons, hfr, Bool.false_eq_true, if_false] at hlen
              rw [List.map_cons] at hb'
              rcases List.mem_cons.mp hb' with rfl | hb'
              · rw [stepAlert_fst_id] at hbi'
                exact absurd hbi' hbi
              · exact iht2 hlen b' hb' hbi'

/-- When every alert with a given id is already triggered, a tick leaves
that id's records, notifications and triggered status untouched. -/
theorem tick_preserves_triggered (f : PriceFeed) (s : MonitorState)
    (i : String) (hAT : allTriggeredFor s i) :
    recordsFor (tick f s) i = recordsFor s i ∧
    notifsFor (tick f s) i = notifsFor s i ∧
    allTriggeredFor (tick f s) i := by
  have hnil := newRecords_filter_nil f i s.alerts hAT
  refine ⟨?_, ?_, ?_⟩
  · rw [recordsFor_tick, hnil]
    simp
  · rw [notifsFor_tick, hnil]
    simp
  · intro b' hb' hbi
    rw [tick_alerts] at hb'
    obtain ⟨c, hc, rfl⟩ := List.mem_map.mp hb'
    rw [stepAlert_fst_id] at hbi
    have hct := hAT c hc hbi
    rw [(stepAlert_shape f c).2.2.2 hct]
    exact hct

/-- With distinct ids a tick adds at most one record per id, and a strict
increase means the id's alert is triggered afterwards. -/
theorem tick_count_le (f : PriceFeed) (s : MonitorState) (i : String)
    (hnd : (s.alerts.map (fun a => a.id)).Nodup) :
    recordsFor (tick f s) i ≤ recordsFor s i + 1 ∧
    (recordsFor s i < recordsFor (tick f s) i →
      allTriggeredFor (tick f s) i) := by
  obtain ⟨h1, h2⟩ := newRecords_count_core f i s.alerts hnd
  constructor
  · rw [recordsFor_tick]
    omega
  · intro hlt
    rw [recordsFor_tick] at hlt
    have hge : 1 ≤
        ((newRecords f s.alerts).filter (fun r => r.alertId == i)).length := by
      omega
    intro b' hb' hbi
    rw [tick_alerts] at hb'
    exact h2 hge b' hb' hbi

/-- A triggered alert stays in the registry, unchanged, along any run. -/
theorem mem_run_of_triggered (a : AlertState) :
    ∀ (feeds : List PriceFeed) (s : MonitorState), a ∈ s.alerts →
      a.triggered = true → a ∈ (runTicks feeds s).alerts := by
  intro feeds
  induction feeds with
  | nil => intro s h _; exact h
  | cons f fs ih =>
      intro s ha ht
      have hstep := (stepAlert_shape f a).2.2.2 ht
      have : a ∈ (tick f s).alerts := by
        rw [tick_alerts]
        exact List.mem_map.mpr ⟨a, ha, by rw [hstep]⟩
      exact ih (tick f s) this ht

/-- Run-level invariant: with distinct ids, any id gains at most one record
over a whole run, and an id whose alerts are all triggered gains nothing
and stays all-triggered. -/
theorem run_records_aux (i : String) :
    ∀ (feeds : List PriceFeed) (s : MonitorState),
      (s.alerts.map (fun a => a.id)).Nodup →
      (recordsFor (runTicks feeds s) i ≤ recordsFor s i + 1) ∧
      (allTriggeredFor s i →
        recordsFor (runTicks feeds s) i = recordsFor s i ∧
        notifsFor (runTicks feeds s) i = notifsFor s i ∧
        allTriggeredFor (runTicks feeds s) i) := by
  intro feeds
  induction feeds with
  | nil =>
      intro s _
      exact ⟨Nat.le_succ _, fun h => ⟨rfl, rfl, h⟩⟩
  | cons f fs ih =>
      intro s hnd
      have hnd' := tick_nodup f s hnd
      obtain ⟨ihA, ihB⟩ := ih (tick f s) hnd'
      have hrun : runTicks (f :: fs) s = runTicks fs (tick f s) := rfl
      constructor
      · rw [hrun]
        by_cases hAT : allTriggeredFor s i
        · obtain ⟨he, -, hAT'⟩ := tick_preserves_triggered f s i hAT
          have := (ihB hAT').1
          omega
        · obtain ⟨hle, himp⟩ := tick_count_le f s i hnd
          by_cases hlt : recordsFor s i < recordsFor (tick f s) i
          · have := (ihB (himp hlt)).1
            omega
          · omega
      · intro hAT
        obtain ⟨he, hn, hAT'⟩ := tick_preserves_triggered f s i hAT
        obtain ⟨hre, hne, hATr⟩ := ihB hAT'
        rw [hrun]
        exact ⟨by omega, by omega, hATr⟩

/-- C7: once an alert's triggered flag is set, it never transitions back
along any sequence of monitor ticks: the alert remains in the registry
unchanged, no further poll re-triggers it, and no further
`TriggeredAlertRecord` or notification is appended for it; moreover (with
the registry's ids distinct, as the `Map` key structure guarantees) every
alert gains at most one triggered record over any run — the
ACTIVE → TRIGGERED transition happens at most once. -/
theorem triggered_alert_is_terminal (s : MonitorState)
    (feeds : List PriceFeed)
    (hnd : (s.alerts.map (fun a => a.id)).Nodup) :
    (∀ a ∈ s.alerts, a.triggered = true →
      a ∈ (runTicks feeds s).alerts ∧
      recordsFor (runTicks feeds s) a.id = recordsFor s a.id ∧
      notifsFor (runTicks feeds s) a.id = notifsFor s a.id) ∧
    (∀ a ∈ s.alerts,
      recordsFor (runTicks feeds s) a.id ≤ recordsFor s a.id + 1) := by
  constructor
  · intro a ha ht
    have hAT : allTriggeredFor s a.id := by
      intro b hb hbi
      have hba : b = a := List.inj_on_of_nodup_map hnd hb ha hbi
      rw [hba]
      exact ht
    obtain ⟨hre, hne, -⟩ := (run_records_aux a.id feeds s hnd).2 hAT
    exact ⟨mem_run_of_triggered a feeds s ha ht, hre, hne⟩
  · intro a ha
    exact (run_records_aux a.id feeds s hnd).1

/-- Witness for C7: a registry holding one already-triggered alert keeps
the alert and gains no record for it across a poll tick. -/
theorem triggered_alert_is_terminal_witness :
    c7Alert ∈ (runTicks [c8Feed 155] c7Start).alerts ∧
    recordsFor (runTicks [c8Feed 155] c7Start) "t1" =
      recordsFor c7Start "t1" ∧
    notifsFor (runTicks [c8Feed 155] c7Start) "t1" =
      notifsFor c7Start "t1" := by
  have h := (triggered_alert_is_terminal c7Start [c8Feed 155]
    (by simp [c7Start])).1 c7Alert (by simp [c7Start]) rfl
  exact ⟨h.1, h.2.1, h.2.2⟩

/-! ## Herfindahl index lemmas (claim C6) -/

theorem double_sum_sub_sq (n : ℕ) (f : Fin n → ℝ) :
    (∑ i, ∑ j, (f i - f j)^2) = 2 * ((n : ℝ) * ∑ i, (f i)^2 - (∑ i, f i)^2) := by
  have e1 : ∀ i : Fin n, ∑ j, (f i - f j)^2 =
      (n : ℝ) * (f i)^2 - 2 * f i * (∑ j, f j) + ∑ j, (f j)^2 := by
    intro i
    calc ∑ j, (f i - f j)^2
        = ∑ j, ((f i)^2 - 2 * f i * f j + (f j)^2) := by
          apply Finset.sum_congr rfl
          intro j _
          ring
      _ = (∑ _j : Fin n, (f i)^2) - (∑ j, 2 * f i * f j) + ∑ j, (f j)^2 := by
          rw [Finset.sum_add_distrib, Finset.sum_sub_distrib]
      _ = (n : ℝ) * (f i)^2 - 2 * f i * (∑ j, f j) + ∑ j, (f j)^2 := by
          rw [Finset.sum_const, Finset.card_univ, Fintype.card_fin,
            nsmul_eq_mul, ← Finset.mul_sum]
  calc (∑ i, ∑ j, (f i - f j)^2)
      = ∑ i, ((n : ℝ) * (f i)^2 - 2 * f i * (∑ j, f j) + ∑ j, (f j)^2) := by
        exact Finset.sum_congr rfl (fun i _ => e1 i)
    _ = (∑ i, (n : ℝ) * (f i)^2) - (∑ i, 2 * f i * (∑ j, f j)) +
        ∑ _i : Fin n, ∑ j, (f j)^2 := by
        rw [Finset.sum_add_distrib, Finset.sum_sub_distrib]
    _ = (n : ℝ) * (∑ i, (f i)^2) - 2 * (∑ i, f i) * (∑ j, f j) +
        (n : ℝ) * ∑ j, (f j)^2 := by
        rw [← Finset.mul_sum, ← Finset.sum_mul, Finset.sum_const,
          Finset.card_univ, Fintype.card_fin, nsmul_eq_mul, ← Finset.mul_sum]
    _ = 2 * ((n : ℝ) * ∑ i, (f i)^2 - (∑ i, f i)^2) := by ring

theorem list_sum_eq_finsum (vs : List ℝ) : vs.sum = ∑ i, vs.get i := by
  conv_lhs => rw [← List.ofFn_get vs]
  rw [List.sum_ofFn]

theorem list_map_sum_eq_finsum (vs : List ℝ) (g : ℝ → ℝ) :
    (vs.map g).sum = ∑ i, g (vs.get i) := by
  conv_lhs => rw [← List.ofFn_get vs]
  rw [List.map_ofFn, List.sum_ofFn]
  rfl

theorem sq_sum_le_card_mul (vs : List ℝ) :
    vs.sum ^ 2 ≤ (vs.length : ℝ) * (vs.map (fun v => v ^ 2)).sum := by
  rw [list_sum_eq_finsum, list_map_sum_eq_finsum]
  have hid := double_sum_sub_sq vs.length vs.get
  have hnn : 0 ≤ ∑ i, ∑ j, (vs.get i - vs.get j)^2 :=
    Finset.sum_nonneg (fun i _ => Finset.sum_nonneg (fun j _ => sq_nonneg _))
  linarith

theorem sq_sum_eq_card_mul_iff (vs : List ℝ) :
    vs.sum ^ 2 = (vs.length : ℝ) * (vs.map (fun v => v ^ 2)).sum ↔
      ∀ v ∈ vs, ∀ w ∈ vs, v = w := by
  rw [list_sum_eq_finsum, list_map_sum_eq_finsum]
  constructor
  · intro heq v hv w hw
    have hz : ∑ i, ∑ j, (vs.get i - vs.get j)^2 = 0 := by
      rw [double_sum_sub_sq]
      linarith
    have hterm : ∀ i j : Fin vs.length, vs.get i = vs.get j := by
      intro i j
      have h1 := (Finset.sum_eq_zero_iff_of_nonneg
        (fun i _ => Finset.sum_nonneg (fun j _ => sq_nonneg _))).mp hz i
        (Finset.mem_univ i)
      have h2 := (Finset.sum_eq_zero_iff_of_nonneg
        (fun j _ => sq_nonneg _)).mp h1 j (Finset.mem_univ j)
      have h3 := sq_eq_zero_iff.mp h2
      exact sub_eq_zero.mp h3
    obtain ⟨i, hi⟩ := List.mem_iff_get.mp hv
    obtain ⟨j, hj⟩ := List.mem_iff_get.mp hw
    rw [← hi, ← hj]
    exact hterm i j
  · intro hall
    have hz : ∑ i, ∑ j, (vs.get i - vs.get j)^2 = 0 :=
      Finset.sum_eq_zero (fun i _ => Finset.sum_eq_zero (fun j _ => by
        rw [hall (vs.get i) (List.get_mem vs i.1 i.2) (vs.get j) (List.get_mem vs j.1 j.2)]
        ring))
    have hid := double_sum_sub_sq vs.length vs.get
    rw [hz] at hid
    linarith

theorem sumSq_le_sq (vs : List ℝ) (h : ∀ v ∈ vs, 0 ≤ v) :
    (vs.map (fun v => v ^ 2)).sum ≤ vs.sum ^ 2 := by
  induction vs with
  | nil => simp
  | cons a t ih =>
      simp only [List.map_cons, List.sum_cons]
      have ha : 0 ≤ a := h a (List.mem_cons_self a t)
      have ht : ∀ v ∈ t, 0 ≤ v := fun v hv => h v (List.mem_cons_of_mem _ hv)
      have hts : 0 ≤ t.sum := List.sum_nonneg ht
      have hih := ih ht
      nlinarith [mul_nonneg ha hts]

theorem sumSq_lt_sq (a b : ℝ) (t : List ℝ) (h : ∀ v ∈ a :: b :: t, 0 < v) :
    ((a :: b :: t).map (fun v => v ^ 2)).sum < (a :: b :: t).sum ^ 2 := by
  have ha : 0 < a := h a (List.mem_cons_self _ _)
  have hbt : ∀ v ∈ b :: t, 0 < v := fun v hv => h v (List.mem_cons_of_mem _ hv)
  have hbts : 0 < (b :: t).sum := List.sum_pos _ hbt (List.cons_ne_nil _ _)
  have hle := sumSq_le_sq (b :: t) (fun v hv => le_of_lt (hbt v hv))
  simp only [List.map_cons, List.sum_cons] at *
  nlinarith

theorem sum_map_div (c : ℝ) (f : ℝ → ℝ) :
    ∀ (l : List ℝ), (l.map (fun x => f x / c)).sum = (l.map f).sum / c := by
  intro l
  induction l with
  | nil => simp
  | cons a t ih =>
      simp only [List.map_cons, List.sum_cons, ih]
      rw [add_div]

theorem weightSq_sum_bounds (vs : List ℝ) (hne : vs ≠ [])
    (hpos : ∀ v ∈ vs, 0 < v) :
    1 / (vs.length : ℝ) ≤ (vs.map (fun v => (v / vs.sum) ^ 2)).sum ∧
    (vs.map (fun v => (v / vs.sum) ^ 2)).sum ≤ 1 ∧
    ((vs.map (fun v => (v / vs.sum) ^ 2)).sum = 1 ↔ vs.length = 1) ∧
    ((vs.map (fun v => (v / vs.sum) ^ 2)).sum = 1 / (vs.length : ℝ) ↔
      ∀ v ∈ vs, ∀ w ∈ vs, v = w) := by
  have hT : 0 < vs.sum := List.sum_pos vs hpos hne
  have hT2 : 0 < vs.sum ^ 2 := by positivity
  have hn : 0 < vs.length := List.length_pos.mpr hne
  have hnR : (0 : ℝ) < vs.length := by exact_mod_cast hn
  have hHdiv : (vs.map (fun v => (v / vs.sum) ^ 2)).sum =
      (vs.map (fun v => v ^ 2)).sum / vs.sum ^ 2 := by
    rw [List.map_congr_left (fun v _ => div_pow v vs.sum 2)]
    exact sum_map_div (vs.sum ^ 2) (fun v => v ^ 2) vs
  have hcs := sq_sum_le_card_mul vs
  refine ⟨?_, ?_, ?_, ?_⟩
  · rw [hHdiv, div_le_div_iff₀ hnR hT2]
    linarith
  · rw [hHdiv, div_le_one hT2]
    exact sumSq_le_sq vs (fun v hv => le_of_lt (hpos v hv))
  · rw [hHdiv]
    constructor
    · intro h1
      by_contra hne1
      match vs, hne, hpos, hne1, hT2, h1 with
      | a :: b :: t, _, hpos, _, hT2, h1 =>
          have hlt := sumSq_lt_sq a b t hpos
          have : ((a :: b :: t).map (fun v => v ^ 2)).sum /
              (a :: b :: t).sum ^ 2 < 1 := (div_lt_one hT2).mpr hlt
          rw [h1] at this
          exact lt_irrefl 1 this
      | [a], _, hpos, hne1, _, _ => exact hne1 rfl
      | [], hne, _, _, _, _ => exact hne rfl
    · intro h1
      obtain ⟨a, rfl⟩ := List.length_eq_one.mp h1
      have ha : 0 < a := hpos a (List.mem_cons_self a [])
      simp only [List.map_cons, List.map_nil, List.sum_cons, List.sum_nil,
        add_zero]
      exact div_self (by positivity)
  · rw [hHdiv, div_eq_div_iff (ne_of_gt hT2) (ne_of_gt hnR)]
    rw [← sq_sum_eq_card_mul_iff vs]
    constructor
    · intro h
      linarith
    · intro h
      linarith

/-- The Herfindahl accumulator as a sum over the squared weights of the
holdings' value list. -/
theorem herfindahlIndex_eq (hs : List PricedHolding) :
    herfindahlIndex hs = ((hs.map (fun h => h.value)).map
      (fun v => (v / (hs.map (fun h => h.value)).sum) ^ 2)).sum := by
  have hT : holdingsTotalValue hs = (hs.map (fun h => h.value)).sum := by
    unfold holdingsTotalValue
    rw [foldl_add_eq_sum (fun h : PricedHolding => h.value)]
    simp
  unfold herfindahlIndex
  rw [foldl_add_eq_sum
    (fun h : PricedHolding => (h.value / holdingsTotalValue hs) ^ 2)]
  rw [List.map_map, hT]
  simp only [zero_add]
  rfl

/-- C6: for every non-empty list of holdings with positive values, the
computed Herfindahl index lies in `[1/n, 1]`; it equals `1` iff there is a
single holding; and it equals `1/n` iff all holdings have equal value. -/
theorem herfindahl_index_bounds (hs : List PricedHolding) (hne : hs ≠ [])
    (hpos : ∀ h ∈ hs, 0 < h.value) :
    1 / (hs.length : ℝ) ≤ herfindahlIndex hs ∧
    herfindahlIndex hs ≤ 1 ∧
    (herfindahlIndex hs = 1 ↔ hs.length = 1) ∧
    (herfindahlIndex hs = 1 / (hs.length : ℝ) ↔
      ∀ h ∈ hs, ∀ g ∈ hs, h.value = g.value) := by
  have hvne : hs.map (fun h => h.value) ≠ [] := by
    simpa using hne
  have hvpos : ∀ v ∈ hs.map (fun h => h.value), 0 < v := by
    intro v hv
    rw [List.mem_map] at hv
    obtain ⟨h, hh, rfl⟩ := hv
    exact hpos h hh
  have main := weightSq_sum_bounds (hs.map (fun h => h.value)) hvne hvpos
  rw [List.length_map] at main
  rw [herfindahlIndex_eq]
  refine ⟨main.1, main.2.1, main.2.2.1, main.2.2.2.trans ?_⟩
  constructor
  · intro hall h hh g hg
    exact hall h.value (List.mem_map_of_mem _ hh) g.value
      (List.mem_map_of_mem _ hg)
  · intro hall v hv w hw
    rw [List.mem_map] at hv
    rw [List.mem_map] at hw
    obtain ⟨h, hh, rfl⟩ := hv
    obtain ⟨g, hg, rfl⟩ := hw
    exact hall h hh g hg

/-- Witness for C6 at a concrete two-holding portfolio of equal values. -/
theorem herfindahl_index_bounds_witness :
    c6Holdings ≠ [] ∧
    1 / (c6Holdings.length : ℝ) ≤ herfindahlIndex c6Holdings ∧
    herfindahlIndex c6Holdings ≤ 1 ∧
    (herfindahlIndex c6Holdings = 1 ↔ c6Holdings.length = 1) := by
  have hne : c6Holdings ≠ [] := by simp [c6Holdings]
  have hpos : ∀ h ∈ c6Holdings, 0 < h.value := by
    intro h hm
    simp only [c6Holdings, List.mem_cons, List.not_mem_nil, or_false] at hm
    rcases hm with rfl | rfl <;> norm_num
  have h := herfindahl_index_bounds c6Holdings hne hpos
  exact ⟨hne, h.1, h.2.1, h.2.2.1⟩

end CryptoAgent
